import Mathlib

/-!
Verification of the fusion/materialization core of the parrot array engine.

The repository ships the engine's public surface through a single header
(parrot.hpp); the source tree provided here contains the backend helper
header thrustx.hpp, the test suites, the docs and the example programs.
Where a definition embeds code from thrustx.hpp the doc comment names the
functor it mirrors; the remaining operations are modelled from the spec
(and cross-checked against the expected outputs hard-coded in the tests),
and their doc comments say so.
-/

set_option maxRecDepth 4000

deriving instance DecidableEq for Except

namespace Parrot

/-- Modelled from the spec: the error taxonomy of the core (spec section 7).
The implementation header parrot.hpp is not part of the provided sources;
every failure path visible in the repository raises the single C++ type
std-invalid_argument: thrustx.hpp throws std-invalid_argument in
reduce_by_n, and every failure test (ReshapeLargerSizeTest, TakeInvalidTest,
DropTest, ReplicateInvalidNTest, CrossEmptyArrayTest,
PairsWithDifferentSizesTest, MatrixInvalidTest, TransposeInvalid1DTest,
RepeatInvalidTest) checks exactly std-invalid_argument. The error kind is
therefore a single constructor. -/
inductive ErrKind where
  | invalidArgument
deriving DecidableEq

/-- Modelled from the spec: a raised error carries its kind (the C++ exception
type) and a message naming the operator and the offending sizes. -/
structure PError where
  kind : ErrKind
  msg : String
deriving DecidableEq

/-- Modelled from the spec: an array is logically a sequence of elements in
row-major order together with a shape (rank 0 means scalar); the storage
kind (lazy view versus materialized buffer) does not change the logical
element sequence, so the embedding carries the shape and the row-major
element list. -/
structure PArray (α : Type) where
  shape : List Nat
  data : List α
deriving DecidableEq

/-- Number of elements of an array (spec section 3: size). -/
def PArray.size {α : Type} (a : PArray α) : Nat := a.data.length

/-- Rank of an array: the length of its shape vector (spec section 3). -/
def PArray.rank {α : Type} (a : PArray α) : Nat := a.shape.length

/-- Modelled from the spec: the rank-0 scalar constructor parrot-scalar. -/
def scalar {α : Type} (v : α) : PArray α := ⟨[], [v]⟩

/-- Modelled from the spec: the rank-1 literal constructor parrot-array. -/
def array {α : Type} (l : List α) : PArray α := ⟨[l.length], l⟩

/-- Modelled from the spec (section 4.1): reshape requires the product of the
new shape to be at most size(); when smaller the result is the first
product(newShape) elements in row-major order, when larger it fails
(ReshapeLargerSizeTest checks std-invalid_argument). -/
def reshape {α : Type} (a : PArray α) (s : List Nat) : Except PError (PArray α) :=
  if a.data.length < s.prod then
    .error ⟨.invalidArgument, "reshape: new shape is larger than array size"⟩
  else
    .ok ⟨s, a.data.take s.prod⟩

/-- Embeds direct_cycle_functor from thrustx.hpp: element i of the cycled view
reads the source at index i mod n where n is the source size; the target
shape gives the output extent (spec section 4.1). -/
def cycle {α : Type} [Inhabited α] (a : PArray α) (s : List Nat) : PArray α :=
  ⟨s, (List.range s.prod).map (fun i => a.data.getD (i % a.data.length) default)⟩

/-- Modelled from the spec (section 4.2 failure conditions): take(n) fails with
the invalid-argument error when n is negative or exceeds size(), otherwise
yields the first n elements. -/
def take {α : Type} (a : PArray α) (n : Int) : Except PError (PArray α) :=
  if n < 0 ∨ (a.data.length : Int) < n then
    .error ⟨.invalidArgument, "take: n out of range"⟩
  else
    .ok ⟨[n.toNat], a.data.take n.toNat⟩

/-- Modelled from the spec (section 4.2 failure conditions): drop(n) fails with
the invalid-argument error when n is negative or exceeds size(), otherwise
yields the remaining size() - n elements in order. -/
def drop {α : Type} (a : PArray α) (n : Int) : Except PError (PArray α) :=
  if n < 0 ∨ (a.data.length : Int) < n then
    .error ⟨.invalidArgument, "drop: n out of range"⟩
  else
    .ok ⟨[a.data.length - n.toNat], a.data.drop n.toNat⟩

/-- Modelled from the spec (section 4.2 rule 2): a pointwise binary operation
broadcasts a rank-0 scalar operand over the other side, requires equal
sizes otherwise, and fails eagerly at the call on a size mismatch between
two non-scalar operands (Map2SingleElementArrayTest checks that even a
one-element rank-1 array does not broadcast). -/
def map2 {α β γ : Type} [Inhabited α] [Inhabited β] (op : α → β → γ)
    (a : PArray α) (b : PArray β) : Except PError (PArray γ) :=
  if a.shape.length = 0 then
    .ok ⟨b.shape, b.data.map (fun y => op (a.data.getD 0 default) y)⟩
  else if b.shape.length = 0 then
    .ok ⟨a.shape, a.data.map (fun x => op x (b.data.getD 0 default))⟩
  else if a.data.length = b.data.length then
    .ok ⟨a.shape, List.zipWith op a.data b.data⟩
  else
    .error ⟨.invalidArgument, "map2: size mismatch"⟩

/-- Modelled from the spec (section 4.3): inclusive prefix scan of a list
seeded by the running accumulator; emits the accumulator before folding in
the next element. -/
def scanFrom {α : Type} (op : α → α → α) (acc : α) : List α → List α
  | [] => [acc]
  | y :: ys => acc :: scanFrom op (op acc y) ys

/-- Modelled from the spec (section 4.3): inclusive scan of a list; the first
emitted value is the first input value unmodified and the identity element
is not applied. -/
def scan1 {α : Type} (op : α → α → α) : List α → List α
  | [] => []
  | x :: xs => scanFrom op x xs

/-- Modelled from the spec (section 4.3): whole-array scan keeps the shape and
scans the row-major element sequence inclusively. -/
def scan {α : Type} (op : α → α → α) (a : PArray α) : PArray α :=
  ⟨a.shape, scan1 op a.data⟩

/-- Modelled from the spec: the sums() convenience is the scan with addition
(SumsTest, ScanPlusTest). -/
def sums (a : PArray Int) : PArray Int := scan (fun x y => x + y) a

/-- Modelled from the spec: the prods() convenience is the scan with
multiplication (ProdsTest, ScanMultipliesTest). -/
def prods (a : PArray Int) : PArray Int := scan (fun x y => x * y) a

/-- Modelled from the spec: the mins() convenience is the scan with minimum
(MinsTest, ScanMinimumTest). -/
def mins (a : PArray Int) : PArray Int := scan min a

/-- Modelled from the spec: the maxs() convenience is the scan with maximum
(MaxsTest, ScanMaximumTest). -/
def maxs (a : PArray Int) : PArray Int := scan max a

/-- Embeds reduce_by_n from thrustx.hpp together with the segmented-reduce
primitive it drives: the input splits into length-n consecutive segments
and each segment folds with the operator starting from the init element. -/
def reduceByN {α : Type} (op : α → α → α) (init : α) (n : Nat) (data : List α) :
    List α :=
  (List.range (data.length / n)).map
    (fun i => ((data.drop (i * n)).take n).foldl op init)

/-- Modelled from the spec (section 4.3): the row-wise axis sum on a rank-2
array (written sum<2> in the tests) reduces each length-cols row segment
with addition and identity 0, one output element per row. -/
def sum2 (a : PArray Rat) : PArray Rat :=
  match a.shape with
  | [r, c] => ⟨[r], reduceByN (fun x y => x + y) 0 c a.data⟩
  | _ => a

/-- Modelled from the spec (section 4.3): the column j of a rank-2 row-major
array with the given column count, swept by row index. -/
def colList {α : Type} [Inhabited α] (cols : Nat) (data : List α) (j rows : Nat) :
    List α :=
  (List.range rows).map (fun r => data.getD (r * cols + j) default)

/-- Modelled from the spec (section 4.3): the column-wise (axis 1) scan of a
rank-2 array; each column is one independent segment, the output keeps the
input shape, and output position (i, j) holds element i of the inclusive
scan of column j (ScanColTest). -/
def scanAxis1 {α : Type} [Inhabited α] (op : α → α → α) (a : PArray α) : PArray α :=
  match a.shape with
  | [r, c] =>
    ⟨[r, c], (List.range (r * c)).map
      (fun idx => (scan1 op (colList c a.data (idx % c) r)).getD (idx / c) default)⟩
  | _ => a

/-- Inclusive fold of a nonempty list: the head folded left through the tail
(used to state what one scan output element equals). -/
def fold1 {α : Type} [Inhabited α] (op : α → α → α) : List α → α
  | [] => default
  | x :: xs => xs.foldl op x

/-- Modelled from the spec (section 4.4): max_by_key returns the single
maximal element by the key function as a size-1 array (size-0 for empty
input); the fold replaces the accumulator only on a strictly greater key,
so ties resolve to the first occurrence in source order (MaxByTest,
MaxByEmptyTest, and the mode example program). -/
def max_by_key {α κ : Type} [LinearOrder κ] (key : α → κ) (a : PArray α) :
    PArray α :=
  match a.data with
  | [] => ⟨[0], []⟩
  | x :: xs =>
    ⟨[1], [xs.foldl (fun acc y => if key acc < key y then y else acc) x]⟩

/-- Modelled from the spec: repeat(n) is valid only on a rank-0 scalar with a
positive count and produces the rank-1 array of n copies of the scalar
value (RepeatTest, RepeatInvalidTest check this contract). -/
def repeatN {α : Type} [Inhabited α] (a : PArray α) (n : Int) :
    Except PError (PArray α) :=
  if a.shape.length ≠ 0 then
    .error ⟨.invalidArgument, "repeat: receiver must be a scalar"⟩
  else if n ≤ 0 then
    .error ⟨.invalidArgument, "repeat: n must be positive"⟩
  else
    .ok ⟨[n.toNat], List.replicate n.toNat (a.data.getD 0 default)⟩

/-- Embeds replicate_functor from thrustx.hpp (element i of the output reads
the source at index i / n) with the validation of spec section 4.4:
replicate fails with the invalid-argument error when n is not positive. -/
def replicate {α : Type} [Inhabited α] (a : PArray α) (n : Int) :
    Except PError (PArray α) :=
  if n ≤ 0 then
    .error ⟨.invalidArgument, "replicate: n must be positive"⟩
  else
    .ok ⟨[a.data.length * n.toNat],
      (List.range (a.data.length * n.toNat)).map
        (fun i => a.data.getD (i / n.toNat) default)⟩

/-- Modelled from the spec (section 4.4): pairs zips two arrays element-wise
and fails with the invalid-argument error when the sizes differ
(PairsTest, PairsWithDifferentSizesTest). -/
def pairs {α β : Type} (a : PArray α) (b : PArray β) :
    Except PError (PArray (α × β)) :=
  if a.data.length = b.data.length then
    .ok ⟨a.shape, a.data.zip b.data⟩
  else
    .error ⟨.invalidArgument, "pairs: size mismatch"⟩

/-- Embeds direct_outer_functor from thrustx.hpp (row = i / size2,
col = i mod size2) with the validation of spec section 4.4: cross fails
with the invalid-argument error when either operand is empty. -/
def cross {α β : Type} [Inhabited α] [Inhabited β] (a : PArray α) (b : PArray β) :
    Except PError (PArray (α × β)) :=
  if a.data.length = 0 ∨ b.data.length = 0 then
    .error ⟨.invalidArgument, "cross: empty operand"⟩
  else
    .ok ⟨[a.data.length * b.data.length],
      (List.range (a.data.length * b.data.length)).map
        (fun i => (a.data.getD (i / b.data.length) default,
                   b.data.getD (i % b.data.length) default))⟩

/-- Modelled from the spec (section 4.1): transpose is valid only on rank-2
shapes, swaps the two extents and maps output position (j, i) to source
position (i, j); any other rank fails (TransposeInvalid1DTest checks
std-invalid_argument). -/
def transpose {α : Type} [Inhabited α] (a : PArray α) : Except PError (PArray α) :=
  match a.shape with
  | [r, c] =>
    .ok ⟨[c, r], (List.range (c * r)).map
      (fun idx => a.data.getD ((idx % r) * c + idx / r) default)⟩
  | _ => .error ⟨.invalidArgument, "transpose: rank must be 2"⟩

/-- Modelled from the spec (section 4.1): the scalar-fill matrix constructor
requires rank exactly 2 and fills the buffer with the value
(MatrixTest, MatrixInvalidTest). -/
def matrix {α : Type} (v : α) (s : List Nat) : Except PError (PArray α) :=
  if s.length = 2 then
    .ok ⟨s, List.replicate s.prod v⟩
  else
    .error ⟨.invalidArgument, "matrix: shape must have exactly 2 dimensions"⟩

/-- The kind of the error a fallible call raised, if it raised one. -/
def errKind {β : Type} : Except PError β → Option ErrKind
  | .error e => some e.kind
  | .ok _ => none

end Parrot

namespace Parrot

lemma getD_map_range {α : Type} (f : Nat → α) (d : α) (p i : Nat) (h : i < p) :
    ((List.range p).map f).getD i d = f i := by
  have hlen : i < ((List.range p).map f).length := by simpa using h
  rw [List.getD_eq_getElem _ _ hlen]
  simp

lemma zipWith_getD {α β γ : Type} (f : α → β → γ) (l1 : List α) (l2 : List β)
    (d1 : α) (d2 : β) (d : γ) (i : Nat) (h1 : i < l1.length) (h2 : i < l2.length) :
    (List.zipWith f l1 l2).getD i d = f (l1.getD i d1) (l2.getD i d2) := by
  have hz : i < (List.zipWith f l1 l2).length := by
    simp [List.length_zipWith]
    omega
  rw [List.getD_eq_getElem _ _ hz, List.getD_eq_getElem _ _ h1,
    List.getD_eq_getElem _ _ h2]
  exact List.getElem_zipWith (h := hz)

lemma scanFrom_length {α : Type} (op : α → α → α) (x : α) (xs : List α) :
    (scanFrom op x xs).length = xs.length + 1 := by
  induction xs generalizing x with
  | nil => rfl
  | cons y ys ih => simp [scanFrom, ih]

lemma scanFrom_getD_zero {α : Type} (op : α → α → α) (x : α) (xs : List α) (d : α) :
    (scanFrom op x xs).getD 0 d = x := by
  cases xs <;> rfl

lemma scanFrom_getD_succ {α : Type} (op : α → α → α) (x : α) (xs : List α) (d : α)
    (i : Nat) (h : i < xs.length) :
    (scanFrom op x xs).getD (i + 1) d =
      op ((scanFrom op x xs).getD i d) (xs.getD i d) := by
  induction xs generalizing x i with
  | nil => simp at h
  | cons y ys ih =>
    have hstep : scanFrom op x (y :: ys) = x :: scanFrom op (op x y) ys := rfl
    cases i with
    | zero =>
      rw [hstep, List.getD_cons_succ, List.getD_cons_zero, List.getD_cons_zero,
        scanFrom_getD_zero]
    | succ j =>
      have hj : j < ys.length := by simpa using h
      rw [hstep, List.getD_cons_succ, List.getD_cons_succ, List.getD_cons_succ]
      exact ih (op x y) j hj

lemma scanFrom_getD_foldl {α : Type} (op : α → α → α) (x : α) (xs : List α) (d : α)
    (i : Nat) (h : i < xs.length + 1) :
    (scanFrom op x xs).getD i d = (xs.take i).foldl op x := by
  induction xs generalizing x i with
  | nil =>
    cases i with
    | zero => rfl
    | succ j => exact absurd h (by simp)
  | cons y ys ih =>
    have hstep : scanFrom op x (y :: ys) = x :: scanFrom op (op x y) ys := rfl
    cases i with
    | zero =>
      rw [List.take_zero, List.foldl_nil, scanFrom_getD_zero]
    | succ j =>
      have hj : j < ys.length + 1 := by simpa using h
      rw [hstep, List.getD_cons_succ, List.take_succ_cons, List.foldl_cons]
      exact ih (op x y) j hj

lemma scan1_length {α : Type} (op : α → α → α) (l : List α) :
    (scan1 op l).length = l.length := by
  cases l with
  | nil => rfl
  | cons x xs => simp [scan1, scanFrom_length]

end Parrot

namespace Parrot

lemma cycle_data_getD {α : Type} [Inhabited α] (a : PArray α) (s : List Nat)
    (i : Nat) (h : i < s.prod) :
    (cycle a s).data.getD i default = a.data.getD (i % a.data.length) default := by
  unfold cycle
  exact getD_map_range _ default s.prod i h

lemma cycle_size {α : Type} [Inhabited α] (a : PArray α) (s : List Nat) :
    (cycle a s).size = s.prod := by
  simp [cycle, PArray.size]

lemma cycle_data_of_le {α : Type} [Inhabited α] (a : PArray α) (s : List Nat)
    (h : s.prod ≤ a.data.length) :
    (cycle a s).data = a.data.take s.prod := by
  unfold cycle
  apply List.ext_getElem
  · simp [List.length_take]
    omega
  intro i h1 h2
  have hip : i < s.prod := by simpa using h1
  have hlen : i < a.data.length := lt_of_lt_of_le hip h
  simp only [List.getElem_map, List.getElem_range, List.getElem_take]
  rw [Nat.mod_eq_of_lt hlen, List.getD_eq_getElem _ _ hlen]

/-- Claim C3: reshape truncates silently to the first product(s) elements when
product(s) is smaller than the size, is a pure relabeling of the same
elements when equal, and fails with the shape error (raised as the
invalid-argument exception, the only error type of the core) when larger;
the source array is a value the operation never mutates. -/
theorem claim_C3 : ∀ (a : PArray Int) (s : List Nat),
    (s.prod < a.size → reshape a s = .ok ⟨s, a.data.take s.prod⟩) ∧
    (s.prod = a.size → reshape a s = .ok ⟨s, a.data⟩) ∧
    (a.size < s.prod → ∃ e, reshape a s = .error e ∧ e.kind = .invalidArgument) := by
  intro a s
  refine ⟨?_, ?_, ?_⟩
  · intro h
    simp only [PArray.size] at h
    unfold reshape
    rw [if_neg (by omega)]
  · intro h
    simp only [PArray.size] at h
    unfold reshape
    rw [if_neg (by omega), h, List.take_length]
  · intro h
    simp only [PArray.size] at h
    unfold reshape
    rw [if_pos h]
    exact ⟨_, rfl, rfl⟩

/-- Witness for claim C3 at the inputs of ReshapeTruncateTest and
ReshapeLargerSizeTest: reshaping a six-element array to shape 2 by 2
truncates to the first four elements, and reshaping a three-element array
to shape 2 by 3 fails. -/
theorem claim_C3_witness :
    reshape (array [(1 : Int), 2, 3, 4, 5, 6]) [2, 2] = .ok ⟨[2, 2], [1, 2, 3, 4]⟩ ∧
    (∃ e, reshape (array [(1 : Int), 2, 3]) [2, 3] = .error e ∧
      e.kind = .invalidArgument) := by
  constructor
  · have h := (claim_C3 (array [(1 : Int), 2, 3, 4, 5, 6]) [2, 2]).1
    simpa using h (by decide)
  · exact (claim_C3 (array [(1 : Int), 2, 3]) [2, 3]).2.2 (by decide)

/-- Claim C4: cycle produces an array of size product(s) whose element at
linear index i is the source element at index i mod size; when product(s)
is at most the source size it agrees with reshape (which then succeeds on
the same input), and it is a total operation for nonzero source size. -/
theorem claim_C4 : ∀ (a : PArray Int) (s : List Nat), 0 < a.size →
    (cycle a s).size = s.prod ∧
    (∀ i, i < s.prod →
      (cycle a s).data.getD i 0 = a.data.getD (i % a.size) 0) ∧
    (s.prod ≤ a.size → reshape a s = .ok (cycle a s)) := by
  intro a s _
  refine ⟨cycle_size a s, ?_, ?_⟩
  · intro i hi
    simpa [PArray.size] using cycle_data_getD a s i hi
  · intro hle
    simp only [PArray.size] at hle
    unfold reshape
    rw [if_neg (by omega)]
    have hd : (cycle a s).data = a.data.take s.prod := cycle_data_of_le a s hle
    have hs : (cycle a s).shape = s := rfl
    congr 1
    cases hc : cycle a s with
    | mk sh dt =>
      rw [hc] at hd hs
      simp at hd hs
      rw [hd, hs]

end Parrot

namespace Parrot

/-- Witness for claim C4 at the input of CycleLargerSizeTest: cycling a
three-element array to shape 2 by 3 has size 6 and element 4 wraps to
source index 1. -/
theorem claim_C4_witness :
    (cycle (array [(1 : Int), 2, 3]) [2, 3]).size = 6 ∧
    (cycle (array [(1 : Int), 2, 3]) [2, 3]).data.getD 4 0 = 2 := by
  have h := claim_C4 (array [(1 : Int), 2, 3]) [2, 3] (by decide)
  exact ⟨h.1.trans (by decide), (h.2.1 4 (by decide)).trans (by decide)⟩

/-- Claim C8: take(n) and drop(n) fail with the invalid-argument error exactly
when n is negative or exceeds the size; take of the full size is the whole
array, drop of the full size is empty, take 0 is empty, drop 0 is the
whole array, and for valid n take yields the first n elements and drop the
remaining size - n elements in order (their concatenation restores the
array). -/
theorem claim_C8 : ∀ (a : PArray Int) (n : Int),
    ((∃ e, take a n = .error e) ↔ (n < 0 ∨ ((a.size : Int) < n))) ∧
    ((∃ e, drop a n = .error e) ↔ (n < 0 ∨ ((a.size : Int) < n))) ∧
    (take a (a.size : Int) = .ok ⟨[a.size], a.data⟩) ∧
    (drop a (a.size : Int) = .ok ⟨[0], []⟩) ∧
    (take a 0 = .ok ⟨[0], []⟩) ∧
    (drop a 0 = .ok ⟨[a.size], a.data⟩) ∧
    (0 ≤ n → n ≤ (a.size : Int) →
      ∃ t d : PArray Int, take a n = .ok t ∧ drop a n = .ok d ∧
        t.data = a.data.take n.toNat ∧ d.data = a.data.drop n.toNat ∧
        t.data ++ d.data = a.data ∧
        t.size = n.toNat ∧ d.size = a.size - n.toNat) := by
  intro a n
  refine ⟨?_, ?_, ?_, ?_, ?_, ?_, ?_⟩
  · by_cases hc : n < 0 ∨ ((a.data.length : Int) < n) <;>
      simp [take, PArray.size, hc]
  · by_cases hc : n < 0 ∨ ((a.data.length : Int) < n) <;>
      simp [drop, PArray.size, hc]
  · simp [take, PArray.size]
  · simp [drop, PArray.size]
  · simp [take, PArray.size]
  · simp [drop, PArray.size]
  · intro h0 h1
    simp only [PArray.size] at h1
    have hv : ¬(n < 0 ∨ ((a.data.length : Int) < n)) := by omega
    have ht : n.toNat ≤ a.data.length := by omega
    refine ⟨⟨[n.toNat], a.data.take n.toNat⟩,
      ⟨[a.data.length - n.toNat], a.data.drop n.toNat⟩, ?_, ?_, rfl, rfl, ?_, ?_, ?_⟩
    · unfold take; rw [if_neg hv]
    · unfold drop; rw [if_neg hv]
    · exact List.take_append_drop n.toNat a.data
    · simp [PArray.size, List.length_take, Nat.min_eq_left ht]
    · simp [PArray.size, List.length_drop]

/-- Witness for claim C8 at the inputs of TakeInvalidTest and DropTest: on a
five-element array take 6 fails, take and drop of 2 split the array. -/
theorem claim_C8_witness :
    (∃ e, take (array [(1 : Int), 2, 3, 4, 5]) 6 = .error e) ∧
    (∃ t d : PArray Int,
      take (array [(1 : Int), 2, 3, 4, 5]) 2 = .ok t ∧
      drop (array [(1 : Int), 2, 3, 4, 5]) 2 = .ok d ∧
      t.data = [1, 2] ∧ d.data = [3, 4, 5]) := by
  constructor
  · exact ((claim_C8 (array [(1 : Int), 2, 3, 4, 5]) 6).1).mpr (by decide)
  · obtain ⟨t, d, h1, h2, h3, h4, _⟩ :=
      ((claim_C8 (array [(1 : Int), 2, 3, 4, 5]) 2).2.2.2.2.2.2) (by decide) (by decide)
    exact ⟨t, d, h1, h2, h3.trans (by decide), h4.trans (by decide)⟩

/-- Claim C10: repeat(n) is valid only on a rank-0 scalar receiver with a
positive count; any rank at least 1 fails with the invalid-argument error
regardless of n, a scalar with a non-positive n fails likewise, and a
valid call yields the rank-1 array of shape n holding n copies of the
scalar value. -/
theorem claim_C10 : ∀ (a : PArray Int) (n : Int),
    (a.rank ≠ 0 → ∃ e, repeatN a n = .error e ∧ e.kind = .invalidArgument) ∧
    (a.rank = 0 → n ≤ 0 → ∃ e, repeatN a n = .error e ∧ e.kind = .invalidArgument) ∧
    (a.rank = 0 → 0 < n →
      repeatN a n = .ok ⟨[n.toNat], List.replicate n.toNat (a.data.getD 0 0)⟩) := by
  intro a n
  refine ⟨?_, ?_, ?_⟩
  · intro h
    unfold repeatN
    rw [if_pos (by simpa [PArray.rank] using h)]
    exact ⟨_, rfl, rfl⟩
  · intro h hn
    unfold repeatN
    rw [if_neg (by simpa [PArray.rank] using h), if_pos hn]
    exact ⟨_, rfl, rfl⟩
  · intro h hn
    unfold repeatN
    rw [if_neg (by simpa [PArray.rank] using h), if_neg (by omega)]
    rfl

/-- Witness for claim C10 at the inputs of RepeatTest and RepeatInvalidTest:
scalar 7 repeated 6 times gives six sevens, a rank-1 array cannot repeat,
and a scalar with count 0 fails. -/
theorem claim_C10_witness :
    repeatN (scalar (7 : Int)) 6 = .ok ⟨[6], [7, 7, 7, 7, 7, 7]⟩ ∧
    (∃ e, repeatN (array [(1 : Int), 2, 3]) 5 = .error e ∧
      e.kind = .invalidArgument) ∧
    (∃ e, repeatN (scalar (7 : Int)) 0 = .error e ∧
      e.kind = .invalidArgument) := by
  refine ⟨?_, ?_, ?_⟩
  · exact ((claim_C10 (scalar (7 : Int)) 6).2.2 (by decide) (by decide)).trans
      (congrArg Except.ok (by decide))
  · exact (claim_C10 (array [(1 : Int), 2, 3]) 5).1 (by decide)
  · exact (claim_C10 (scalar (7 : Int)) 0).2.1 (by decide) (by decide)

end Parrot

namespace Parrot

/-- Counterexample for claim C2 at the inputs of ReshapeLargerSizeTest and
TakeInvalidTest: the error raised by the oversized reshape and the error
raised by the out-of-range take have the same kind (both are the C++ type
std-invalid_argument), so the caller cannot distinguish them by type. -/
theorem claim_C2_counterexample :
    errKind (reshape (array [(1 : Int), 2, 3]) [2, 3]) = some ErrKind.invalidArgument ∧
    errKind (take (array [(1 : Int), 2, 3, 4, 5]) 6) = some ErrKind.invalidArgument ∧
    errKind (reshape (array [(1 : Int), 2, 3]) [2, 3]) =
      errKind (take (array [(1 : Int), 2, 3, 4, 5]) 6) :=
  ⟨rfl, rfl, rfl⟩

/-- Claim C2 as amended: every failure in the core is reported synchronously
as the single typed error std-invalid_argument, whatever the violated
rule (shape rules of reshape, cycle, transpose or matrix construction, or
count and size rules of take, drop, replicate, repeat, map2, pairs and
cross); an oversized reshape and an out-of-range take raise errors of the
same type, distinguishable only by their message. -/
theorem claim_C2_amended :
    (∀ (a : PArray Int) (s : List Nat) (e : PError),
      reshape a s = .error e → e.kind = .invalidArgument) ∧
    (∀ (a : PArray Int) (n : Int) (e : PError),
      take a n = .error e → e.kind = .invalidArgument) ∧
    (∀ (a : PArray Int) (n : Int) (e : PError),
      drop a n = .error e → e.kind = .invalidArgument) ∧
    (∀ (op : Int → Int → Int) (a b : PArray Int) (e : PError),
      map2 op a b = .error e → e.kind = .invalidArgument) ∧
    (∀ (a : PArray Int) (n : Int) (e : PError),
      repeatN a n = .error e → e.kind = .invalidArgument) ∧
    (∀ (a : PArray Int) (n : Int) (e : PError),
      replicate a n = .error e → e.kind = .invalidArgument) ∧
    (∀ (a b : PArray Int) (e : PError),
      pairs a b = .error e → e.kind = .invalidArgument) ∧
    (∀ (a b : PArray Int) (e : PError),
      cross a b = .error e → e.kind = .invalidArgument) ∧
    (∀ (a : PArray Int) (e : PError),
      transpose a = .error e → e.kind = .invalidArgument) ∧
    (∀ (v : Int) (s : List Nat) (e : PError),
      matrix v s = .error e → e.kind = .invalidArgument) ∧
    (∃ e1 e2 : PError,
      reshape (array [(1 : Int), 2, 3]) [2, 3] = .error e1 ∧
      take (array [(1 : Int), 2, 3, 4, 5]) 6 = .error e2 ∧
      e1.kind = e2.kind ∧ e1.msg ≠ e2.msg) := by
  have hk : ∀ e : PError, e.kind = .invalidArgument := by
    intro e
    cases e with
    | mk k m => cases k; rfl
  refine ⟨fun _ _ e _ => hk e, fun _ _ e _ => hk e, fun _ _ e _ => hk e,
    fun _ _ _ e _ => hk e, fun _ _ e _ => hk e, fun _ _ e _ => hk e,
    fun _ _ e _ => hk e, fun _ _ e _ => hk e, fun _ e _ => hk e,
    fun _ _ e _ => hk e, ?_⟩
  exact ⟨⟨.invalidArgument, "reshape: new shape is larger than array size"⟩,
    ⟨.invalidArgument, "take: n out of range"⟩, rfl, rfl, rfl, by decide⟩

/-- Witness for claim C2 as amended: the implications discharged at the
concrete failing inputs of ReshapeLargerSizeTest and TakeInvalidTest. -/
theorem claim_C2_amended_witness :
    (PError.mk ErrKind.invalidArgument
        "reshape: new shape is larger than array size").kind =
      ErrKind.invalidArgument ∧
    (PError.mk ErrKind.invalidArgument "take: n out of range").kind =
      ErrKind.invalidArgument :=
  ⟨claim_C2_amended.1 (array [(1 : Int), 2, 3]) [2, 3] _ rfl,
   claim_C2_amended.2.1 (array [(1 : Int), 2, 3, 4, 5]) 6 _ rfl⟩

/-- Claim C7: a rank-0 scalar combined with an array through map2 or the
arithmetic methods broadcasts the scalar over every element, in either
operand order; two non-scalar operands of differing sizes, including a
one-element rank-1 array against a four-element array, fail eagerly at the
call with the typed error; no broadcasting exists beyond the rank-0 case. -/
theorem claim_C7 :
    (map2 (fun x y => x * y) (scalar (5 : Int)) (array [1, 2, 3, 4]) =
      .ok ⟨[4], [5, 10, 15, 20]⟩) ∧
    (map2 (fun x y => x * y) (array [(1 : Int), 2, 3, 4]) (scalar (5 : Int)) =
      .ok ⟨[4], [5, 10, 15, 20]⟩) ∧
    (∃ e, map2 (fun x y => x * y) (array [(5 : Int)]) (array [(1 : Int), 2, 3, 4]) =
      .error e ∧ e.kind = .invalidArgument) ∧
    (∀ (op : Int → Int → Int) (s b : PArray Int), s.rank = 0 →
      map2 op s b = .ok ⟨b.shape, b.data.map (fun y => op (s.data.getD 0 0) y)⟩) ∧
    (∀ (op : Int → Int → Int) (a b : PArray Int),
      a.rank ≠ 0 → b.rank ≠ 0 → a.size ≠ b.size →
      ∃ e, map2 op a b = .error e ∧ e.kind = .invalidArgument) := by
  refine ⟨by rfl, by rfl, ⟨_, rfl, rfl⟩, ?_, ?_⟩
  · intro op s b h
    unfold map2
    rw [if_pos (by simpa [PArray.rank] using h)]
    rfl
  · intro op a b ha hb hs
    unfold map2
    rw [if_neg (by simpa [PArray.rank] using ha),
      if_neg (by simpa [PArray.rank] using hb),
      if_neg (by simpa [PArray.size] using hs)]
    exact ⟨_, rfl, rfl⟩

/-- Witness for claim C7: the broadcast rule applied at scalar 5 against the
four-element array of Map2ScalarTest. -/
theorem claim_C7_witness :
    map2 (fun x y => x + y) (scalar (5 : Int)) (array [1, 2, 3, 4]) =
      .ok ⟨[4], [6, 7, 8, 9]⟩ := by
  have h := claim_C7.2.2.2.1 (fun x y => x + y) (scalar (5 : Int))
    (array [1, 2, 3, 4]) (by decide)
  exact h.trans (congrArg Except.ok (by decide))

end Parrot

namespace Parrot

/-- Claim C5: an inclusive scan keeps the input length, emits the first input
element unmodified (the identity element is not applied), satisfies the
recurrence that each later element is the operator applied to the previous
output element and the current input element, and the named conveniences
sums, prods, mins and maxs are the scans of the corresponding operators. -/
theorem claim_C5 : ∀ (op : Int → Int → Int) (a : PArray Int), a.size ≠ 0 →
    (scan op a).size = a.size ∧
    (scan op a).data.getD 0 0 = a.data.getD 0 0 ∧
    (∀ i, i + 1 < a.size →
      (scan op a).data.getD (i + 1) 0 =
        op ((scan op a).data.getD i 0) (a.data.getD (i + 1) 0)) ∧
    sums a = scan (fun x y => x + y) a ∧
    prods a = scan (fun x y => x * y) a ∧
    mins a = scan min a ∧
    maxs a = scan max a := by
  intro op a ha
  refine ⟨?_, ?_, ?_, rfl, rfl, rfl, rfl⟩
  · simp [scan, PArray.size, scan1_length]
  · cases hd : a.data with
    | nil => simp [PArray.size, hd] at ha
    | cons x xs =>
      simp only [scan, hd, scan1, List.getD_cons_zero]
      exact scanFrom_getD_zero op x xs 0
  · intro i hi
    cases hd : a.data with
    | nil => simp [PArray.size, hd] at ha
    | cons x xs =>
      have hi' : i < xs.length := by
        simp [PArray.size, hd] at hi
        omega
      simp only [scan, hd, scan1, List.getD_cons_succ]
      exact scanFrom_getD_succ op x xs 0 i hi'

/-- Witness for claim C5 at the input of ScanPlusTest: the scan of one two
three four with addition has size 4, starts at 1, obeys the recurrence at
position 2, and equals sums. -/
theorem claim_C5_witness :
    (scan (fun x y => x + y) (array [(1 : Int), 2, 3, 4])).size = 4 ∧
    (scan (fun x y => x + y) (array [(1 : Int), 2, 3, 4])).data.getD 0 0 = 1 ∧
    (scan (fun x y => x + y) (array [(1 : Int), 2, 3, 4])).data.getD (1 + 1) 0 =
      (scan (fun x y => x + y) (array [(1 : Int), 2, 3, 4])).data.getD 1 0 +
        (array [(1 : Int), 2, 3, 4]).data.getD (1 + 1) 0 ∧
    sums (array [(1 : Int), 2, 3, 4]) =
      scan (fun x y => x + y) (array [(1 : Int), 2, 3, 4]) := by
  have h := claim_C5 (fun x y => x + y) (array [(1 : Int), 2, 3, 4]) (by decide)
  exact ⟨h.1.trans (by decide), h.2.1.trans (by decide),
    h.2.2.1 1 (by decide), h.2.2.2.1⟩

lemma scan1_getD_fold {α : Type} [Inhabited α] (op : α → α → α) (l : List α)
    (i : Nat) (h : i < l.length) :
    (scan1 op l).getD i default = fold1 op (l.take (i + 1)) := by
  cases l with
  | nil => simp at h
  | cons x xs =>
    have h' : i < xs.length + 1 := by simpa using h
    simp only [scan1, List.take_succ_cons, fold1]
    exact scanFrom_getD_foldl op x xs default i h'

/-- Claim C6: the column-wise (axis 1) scan of a rank-2 array treats each
column as one independent segment swept by row index: the output keeps the
input shape and the element in row i, column j is the inclusive fold of
the column entries from row 0 through row i; on the three-by-three matrix
of ScanColTest with addition the result is 1 2 3, 5 7 9, 12 15 18. -/
theorem claim_C6 :
    (∀ (op : Int → Int → Int) (r c : Nat) (d : List Int) (i j : Nat),
      i < r → j < c → d.length = r * c →
      (scanAxis1 op ⟨[r, c], d⟩).shape = [r, c] ∧
      (scanAxis1 op ⟨[r, c], d⟩).size = r * c ∧
      (scanAxis1 op ⟨[r, c], d⟩).data.getD (i * c + j) 0 =
        fold1 op ((colList c d j r).take (i + 1))) ∧
    scanAxis1 (fun x y => x + y) ⟨[3, 3], [1, 2, 3, 4, 5, 6, 7, 8, 9]⟩ =
      (⟨[3, 3], [1, 2, 3, 5, 7, 9, 12, 15, 18]⟩ : PArray Int) := by
  constructor
  · intro op r c d i j hi hj _
    refine ⟨rfl, ?_, ?_⟩
    · simp [scanAxis1, PArray.size]
    · have hidx : i * c + j < r * c := by
        calc i * c + j < i * c + c := by omega
        _ = (i + 1) * c := by ring
        _ ≤ r * c := Nat.mul_le_mul_right c (by omega)
      have hstep : (scanAxis1 op ⟨[r, c], d⟩).data =
          (List.range (r * c)).map
            (fun idx =>
              (scan1 op (colList c d (idx % c) r)).getD (idx / c) default) := rfl
      rw [hstep, getD_map_range _ 0 _ _ hidx]
      have hmod : (i * c + j) % c = j := by
        rw [Nat.mul_comm i c, Nat.mul_add_mod]
        exact Nat.mod_eq_of_lt hj
      have hdiv : (i * c + j) / c = i := by
        rw [Nat.mul_comm i c, Nat.mul_add_div (by omega), Nat.div_eq_of_lt hj]
        rfl
      rw [hmod, hdiv]
      exact scan1_getD_fold op (colList c d j r) i (by simpa [colList] using hi)
  · decide

/-- Witness for claim C6 at the input of ScanColTest: the element in row 2,
column 1 of the column-wise add-scan is the fold of the three entries of
column 1. -/
theorem claim_C6_witness :
    (scanAxis1 (fun x y => x + y)
        (⟨[3, 3], [1, 2, 3, 4, 5, 6, 7, 8, 9]⟩ : PArray Int)).data.getD (2 * 3 + 1) 0 =
      fold1 (fun x y => x + y)
        ((colList 3 [(1 : Int), 2, 3, 4, 5, 6, 7, 8, 9] 1 3).take (2 + 1)) :=
  (claim_C6.1 (fun x y => x + y) 3 3 [1, 2, 3, 4, 5, 6, 7, 8, 9] 2 1
    (by decide) (by decide) (by decide)).2.2

end Parrot

namespace Parrot

lemma foldl_first_max {α κ : Type} [LinearOrder κ] (key : α → κ) :
    ∀ (xs : List α) (x : α),
      ∃ pre post : List α,
        x :: xs = pre ++ (xs.foldl (fun acc z => if key acc < key z then z else acc) x) :: post ∧
        (∀ y ∈ pre, key y < key (xs.foldl (fun acc z => if key acc < key z then z else acc) x)) ∧
        (∀ y ∈ post, key y ≤ key (xs.foldl (fun acc z => if key acc < key z then z else acc) x)) := by
  intro xs
  induction xs with
  | nil =>
    intro x
    exact ⟨[], [], rfl, by simp, by simp⟩
  | cons y ys ih =>
    intro x
    by_cases h : key x < key y
    · have hf : (y :: ys).foldl (fun acc z => if key acc < key z then z else acc) x =
          ys.foldl (fun acc z => if key acc < key z then z else acc) y := by
        simp [List.foldl_cons, if_pos h]
      rw [hf]
      obtain ⟨pre, post, heq, hpre, hpost⟩ := ih y
      have hxr : key x <
          key (ys.foldl (fun acc z => if key acc < key z then z else acc) y) := by
        cases pre with
        | nil =>
          simp only [List.nil_append] at heq
          have hy := (List.cons.injEq _ _ _ _).mp heq
          rw [← hy.1]
          exact h
        | cons a as =>
          simp only [List.cons_append] at heq
          have hy := (List.cons.injEq _ _ _ _).mp heq
          have hmem : y ∈ a :: as := by rw [hy.1]; exact List.mem_cons_self a as
          exact h.trans (hpre y hmem)
      refine ⟨x :: pre, post, ?_, ?_, hpost⟩
      · rw [List.cons_append, ← heq]
      · intro z hz
        rcases List.mem_cons.mp hz with hzx | hzp
        · rw [hzx]; exact hxr
        · exact hpre z hzp
    · have hf : (y :: ys).foldl (fun acc z => if key acc < key z then z else acc) x =
          ys.foldl (fun acc z => if key acc < key z then z else acc) x := by
        simp [List.foldl_cons, if_neg h]
      rw [hf]
      obtain ⟨pre, post, heq, hpre, hpost⟩ := ih x
      cases pre with
      | nil =>
        simp only [List.nil_append] at heq
        have hx := (List.cons.injEq _ _ _ _).mp heq
        refine ⟨[], y :: ys, ?_, by simp, ?_⟩
        · rw [List.nil_append, ← hx.1]
        · intro z hz
          rcases List.mem_cons.mp hz with hzy | hzys
          · rw [hzy, ← hx.1]
            exact le_of_not_lt h
          · exact hpost z (hx.2 ▸ hzys)
      | cons a as =>
        simp only [List.cons_append] at heq
        have hx := (List.cons.injEq _ _ _ _).mp heq
        have hxmem : x ∈ a :: as := by rw [hx.1]; exact List.mem_cons_self a as
        have hxlt := hpre x hxmem
        refine ⟨x :: y :: as, post, ?_, ?_, hpost⟩
        · rw [List.cons_append, List.cons_append]
          exact congrArg (List.cons x) (congrArg (List.cons y) hx.2)
        · intro z hz
          rcases List.mem_cons.mp hz with hzx | hz2
          · rw [hzx]; exact hxlt
          · rcases List.mem_cons.mp hz2 with hzy | hzas
            · rw [hzy]
              exact lt_of_le_of_lt (le_of_not_lt h) hxlt
            · exact hpre z (List.mem_cons_of_mem a hzas)

/-- Claim C9: max_by_key returns a materialized array of size exactly one
holding the element whose key is maximal (size zero for empty input, with
no error), and among elements sharing the maximal key the first occurrence
in source order wins: every element before the returned one has a strictly
smaller key and every element after it has a smaller or equal key; on the
run list of the mode example the runs with count five at values 0 and 2
resolve to value 0. -/
theorem claim_C9 :
    (∀ (α κ : Type) [LinearOrder κ] (key : α → κ) (a : PArray α),
      (a.data = [] → max_by_key key a = ⟨[0], []⟩) ∧
      (a.data ≠ [] → ∃ (x : α) (pre post : List α),
        max_by_key key a = ⟨[1], [x]⟩ ∧
        a.data = pre ++ x :: post ∧
        (∀ y ∈ pre, key y < key x) ∧
        (∀ y ∈ post, key y ≤ key x))) ∧
    max_by_key (fun p => p.2)
        (array [((0 : Int), (5 : Int)), (1, 1), (2, 5), (3, 4), (4, 3),
          (5, 4), (6, 3), (7, 2), (8, 3)]) =
      ⟨[1], [(0, 5)]⟩ := by
  constructor
  · intro α κ lo key a
    constructor
    · intro h
      unfold max_by_key
      rw [h]
    · intro h
      cases hd : a.data with
      | nil => exact absurd hd h
      | cons x xs =>
        obtain ⟨pre, post, heq, hpre, hpost⟩ := foldl_first_max key xs x
        refine ⟨xs.foldl (fun acc z => if key acc < key z then z else acc) x,
          pre, post, ?_, ?_, hpre, hpost⟩
        · unfold max_by_key
          rw [hd]
        · exact heq
  · decide

/-- Witness for claim C9 at the input of MaxByTest: the maximal pair by second
component is the pair 3, 8, with every earlier pair strictly smaller. -/
theorem claim_C9_witness :
    ∃ (x : Int × Int) (pre post : List (Int × Int)),
      max_by_key (fun p => p.2)
          (array [((1 : Int), (5 : Int)), (2, 3), (3, 8), (4, 2)]) = ⟨[1], [x]⟩ ∧
      (array [((1 : Int), (5 : Int)), (2, 3), (3, 8), (4, 2)]).data =
        pre ++ x :: post ∧
      (∀ y ∈ pre, y.2 < x.2) ∧
      (∀ y ∈ post, y.2 ≤ x.2) :=
  (claim_C9.1 (Int × Int) Int (fun p => p.2)
    (array [((1 : Int), (5 : Int)), (2, 3), (3, 8), (4, 2)])).2 (by decide)

end Parrot

namespace Parrot

/-- Claim C1: a binary operation combining an array with a cycled view of a
materialized array resolves each side through its own indexing rule: the
output has the broadcast size p and its element at linear index i is
op(lhs at i, rhs at i mod k) with k the size of the cycled source; for the
two-by-three matrix 1..6 divided by the cycle of its row sums 6 and 15 to
shape 6 the result has size 6 and equals 1/6, 2/15, 3/6, 4/15, 5/6, 6/15
(CompositeStorage_CyclePattern). -/
theorem claim_C1 :
    (∀ (op : Rat → Rat → Rat) (lhs rhs : PArray Rat) (p i : Nat),
      lhs.rank ≠ 0 → lhs.size = p → 0 < rhs.size → i < p →
      ∃ out : PArray Rat,
        map2 op lhs (cycle rhs [p]) = .ok out ∧
        out.size = p ∧
        out.data.getD i 0 =
          op (lhs.data.getD i 0) (rhs.data.getD (i % rhs.size) 0)) ∧
    (sum2 ⟨[2, 3], [1, 2, 3, 4, 5, 6]⟩ = ⟨[2], [6, 15]⟩ ∧
     map2 (fun x y => x / y) (⟨[2, 3], [1, 2, 3, 4, 5, 6]⟩ : PArray Rat)
        (cycle (sum2 ⟨[2, 3], [1, 2, 3, 4, 5, 6]⟩) [6]) =
      .ok ⟨[2, 3], [1/6, 2/15, 3/6, 4/15, 5/6, 6/15]⟩ ∧
     (cycle (sum2 ⟨[2, 3], [1, 2, 3, 4, 5, 6]⟩) [6]).size = 6) := by
  constructor
  · intro op lhs rhs p i hrank hsize hrsz hip
    have hcycLen : (cycle rhs [p]).data.length = p := by simp [cycle]
    have hlhsLen : lhs.data.length = p := hsize
    have hcycRank : (cycle rhs [p]).shape.length ≠ 0 := by simp [cycle]
    refine ⟨⟨lhs.shape, List.zipWith op lhs.data (cycle rhs [p]).data⟩, ?_, ?_, ?_⟩
    · unfold map2
      rw [if_neg (by simpa [PArray.rank] using hrank), if_neg hcycRank,
        if_pos (by rw [hlhsLen, hcycLen])]
    · simp [PArray.size, List.length_zipWith, hlhsLen, hcycLen]
    · rw [zipWith_getD op lhs.data (cycle rhs [p]).data 0 0 0 i
        (by omega) (by omega)]
      congr 1
      have hc := cycle_data_getD rhs [p] i (by simpa using hip)
      simpa [PArray.size] using hc
  · have h1 : sum2 (⟨[2, 3], [1, 2, 3, 4, 5, 6]⟩ : PArray Rat) = ⟨[2], [6, 15]⟩ := by
      simp [sum2, reduceByN, List.range_succ]
      norm_num
    refine ⟨h1, ?_, ?_⟩
    · rw [h1]
      have h2 : cycle (⟨[2], [(6 : Rat), 15]⟩ : PArray Rat) [6] =
          ⟨[6], [6, 15, 6, 15, 6, 15]⟩ := by rfl
      rw [h2]
      rfl
    · rw [h1, cycle_size]
      rfl

/-- Witness for claim C1 at the data of CompositeStorage_CyclePattern: the
division of the matrix by the cycled row sums at linear index 1 is the
second matrix element divided by row sum 1 (2 divided by 15). -/
theorem claim_C1_witness :
    ∃ out : PArray Rat,
      map2 (fun x y => x / y) (⟨[2, 3], [1, 2, 3, 4, 5, 6]⟩ : PArray Rat)
          (cycle (⟨[2], [6, 15]⟩ : PArray Rat) [6]) = .ok out ∧
      out.size = 6 ∧
      out.data.getD 1 0 =
        (fun x y => x / y) ((⟨[2, 3], [1, 2, 3, 4, 5, 6]⟩ : PArray Rat).data.getD 1 0)
          ((⟨[2], [6, 15]⟩ : PArray Rat).data.getD
            (1 % (⟨[2], [6, 15]⟩ : PArray Rat).size) 0) :=
  claim_C1.1 (fun x y => x / y) ⟨[2, 3], [1, 2, 3, 4, 5, 6]⟩ ⟨[2], [6, 15]⟩ 6 1
    (by decide) (by decide) (by decide) (by decide)

end Parrot
